import Mathlib

/-!
Verification of the InsightStoreAI analysis-pipeline core against its
natural-language specification.

The definitions below are a shallow embedding of the TypeScript source:

* `supabase/functions/_shared/gemini.ts` — the Gemini extraction client
  (`reviewsForPrompt` preprocessing, retry loop with exponential backoff);
* `supabase/functions/analyse-reviews/index.ts` — pain-point validation,
  batch persistence and terminal status/broadcast;
* `supabase/functions/scrape-reviews/index.ts` — the per-tier review
  collector with its 24-hour cache and PII redaction;
* `supabase/functions/run-analysis/index.ts` (the orchestrator embedded in
  `_shared/supabase-admin.ts`) — `runPipeline` and the free-tier quota check;
* `src/components/progress/AnalysisProgress.tsx` — the client-side
  progress observer state machine.

Remote calls (Google Play scraper, Gemini HTTP, sibling edge-function
fetches) are modelled as explicit outcome parameters; broadcasts and
database writes are modelled as accumulated event/status lists.
-/

namespace InsightStore

/-- One progress event on the per-job Realtime topic: `{stage, percent}`. -/
structure Ev where
  stage : String
  percent : Nat
deriving Repr, DecidableEq

/-- A terminal event is a `complete` or `error` broadcast. -/
def isTerminal (e : Ev) : Bool :=
  e.stage == "complete" || e.stage == "error"

/-! ## JavaScript `String.prototype.includes`, modelled on character lists -/

/-- `charsStartWith h n` : does `h` start with `n`? -/
def charsStartWith : List Char → List Char → Bool
  | _, [] => true
  | [], _ :: _ => false
  | c :: cs, d :: ds => c == d && charsStartWith cs ds

/-- `charsContain h n` : does `n` occur as a contiguous run inside `h`?  -/
def charsContain : List Char → List Char → Bool
  | [], n => n.isEmpty
  | c :: t, n => charsStartWith (c :: t) n || charsContain t n

/-- Model of JS `haystack.includes(needle)`. -/
def jsIncludes (haystack needle : String) : Bool :=
  charsContain haystack.data needle.data

theorem charsStartWith_append (n r : List Char) : charsStartWith (n ++ r) n = true := by
  induction n with
  | nil =>
    cases r <;> rfl
  | cons c cs ih =>
    simp [charsStartWith, ih]

theorem charsContain_append_left (n r : List Char) : charsContain (n ++ r) n = true := by
  cases n with
  | nil =>
    cases r with
    | nil => rfl
    | cons c t => simp [charsContain, charsStartWith]
  | cons c cs =>
    have h := charsStartWith_append (c :: cs) r
    simp only [charsContain, List.cons_append, Bool.or_eq_true]
    exact Or.inl h

/-! ## JavaScript string helpers, modelled on the character list of a string
so that the kernel can evaluate them on concrete inputs -/

/-- Model of JS `s.trim()`: strip leading and trailing whitespace. -/
def jsTrim (s : String) : String :=
  ⟨((s.data.dropWhile Char.isWhitespace).reverse.dropWhile Char.isWhitespace).reverse⟩

/-- Model of JS `s.substring(0, n)`: the first `n` characters of `s`. -/
def substringTo (s : String) (n : Nat) : String :=
  ⟨s.data.take n⟩

/-! ## Review items and the Gemini extraction client (`_shared/gemini.ts`) -/

/-- A normalized review item as produced by the Sample Collector. -/
structure ReviewItem where
  text : String
  score : Int
  date : String
  thumbsUpCount : Int
  userName : String
deriving Repr, DecidableEq

/-- The predicate of the preprocessing filter in `analyseReviewsWithGemini`:
`r.text && r.text.trim().length > 10`. -/
def keepsReview (r : ReviewItem) : Bool :=
  !(r.text == "") && decide (10 < (jsTrim r.text).length)

/-- The prompt line built for one kept review:
``[`${r.score}★] ${r.text.trim().substring(0, 500)}`` . -/
def promptLine (r : ReviewItem) : String :=
  "[" ++ toString r.score ++ "★] " ++ substringTo (jsTrim r.text) 500

/-- `reviewsForPrompt` from `analyseReviewsWithGemini`: drop short reviews,
truncate the rest to 500 characters, keep only text and score. -/
def reviewsForPrompt (reviews : List ReviewItem) : List String :=
  (reviews.filter keepsReview).map promptLine

/-- Raw improvement-plan object as parsed from the Gemini JSON response;
`none` models a missing field or a field of the wrong type. -/
structure RawImprovement where
  recommendation : Option String
  phase : Option String
  effort : Option String
  impact : Option String
deriving Repr, DecidableEq

/-- Raw pain point as parsed from the Gemini JSON response; `none` models a
missing field or a field of the wrong type. -/
structure RawPainPoint where
  category : Option String
  severity : Option String
  frequency : Option Int
  description : Option String
  representative_quotes : Option (List String)
  improvement : Option RawImprovement
deriving Repr, DecidableEq

/-- The outcome of one Gemini HTTP attempt, as the retry loop observes it. -/
inductive GeminiOutcome where
  | httpError (status : Nat) (body : String)
  | emptyContent
  | badParse (msg : String)
  | success (pain_points : List RawPainPoint)
deriving Repr

def MAX_RETRIES : Nat := 4
def BASE_DELAY_MS : Nat := 5000

/-- The error thrown by one attempt (or the parsed result): a 429 throws
`RateLimited`, any other non-ok status throws `Gemini API {status}: {body}`,
empty content and parse failures throw their own messages. -/
def attemptResult : GeminiOutcome → Except String (List RawPainPoint)
  | .httpError status body =>
      if status == 429 then .error "RateLimited"
      else .error ("Gemini API " ++ toString status ++ ": " ++ body)
  | .emptyContent => .error "Gemini returned empty content"
  | .badParse msg => .error msg
  | .success ps => .ok ps

/-- The retry loop of `analyseReviewsWithGemini`, with `fuel` remaining loop
iterations (`fuel + attempt = MAX_RETRIES` at every call).  Returns the final
result, the number of attempts actually made, and the list of backoff sleeps
(in ms, in order). -/
def geminiAttempts (outcomes : Nat → GeminiOutcome) :
    Nat → Nat → List Nat → String → Except String (List RawPainPoint) × Nat × List Nat
  | 0, attempt, sleeps, lastError => (.error lastError, attempt, sleeps)
  | fuel + 1, attempt, sleeps, _ =>
    let sleeps' := if attempt == 0 then sleeps
      else sleeps ++ [BASE_DELAY_MS * 2 ^ (attempt - 1)]
    match attemptResult (outcomes attempt) with
    | .ok ps => (.ok ps, attempt + 1, sleeps')
    | .error msg =>
      if jsIncludes msg "Gemini API 400:" then (.error msg, attempt + 1, sleeps')
      else geminiAttempts outcomes fuel (attempt + 1) sleeps' msg

/-- The result of one run of the extraction client: the thrown-or-returned
value, the number of HTTP attempts made, and the backoff sleeps performed. -/
structure GeminiRun where
  result : Except String (List RawPainPoint)
  attempts : Nat
  sleeps : List Nat
deriving Repr

/-- `analyseReviewsWithGemini` from `_shared/gemini.ts`: preprocessing
followed by the `MAX_RETRIES`-bounded retry loop. -/
def analyseReviewsWithGemini (reviews : List ReviewItem)
    (outcomes : Nat → GeminiOutcome) : GeminiRun :=
  if (reviewsForPrompt reviews).isEmpty then
    ⟨.error "No valid review text to analyse", 0, []⟩
  else
    let r := geminiAttempts outcomes MAX_RETRIES 0 [] "Gemini call failed after all retries"
    ⟨r.1, r.2.1, r.2.2⟩

/-! ## The analyse-reviews edge function (`analyse-reviews/index.ts`) -/

def validCategories : List String :=
  ["Bug", "UX Issue", "Performance", "Feature Gap", "Privacy", "Support"]
def validSeverities : List String := ["High", "Medium", "Low"]
def validPhases : List String := ["Quick Win", "Short-Term", "Long-Term"]
def validEffortImpact : List String := ["Low", "Medium", "High"]

/-- The validation filter of `analyse-reviews`: closed enums for category,
severity, phase, effort and impact; required types for frequency,
description, quotes and the improvement object. -/
def isValidPainPoint (pp : RawPainPoint) : Bool :=
  pp.category.elim false (fun c => validCategories.contains c) &&
  pp.severity.elim false (fun s => validSeverities.contains s) &&
  pp.frequency.isSome &&
  pp.description.isSome &&
  pp.representative_quotes.isSome &&
  (match pp.improvement with
   | none => false
   | some imp =>
     imp.recommendation.isSome &&
     imp.phase.elim false (fun p => validPhases.contains p) &&
     imp.effort.elim false (fun e => validEffortImpact.contains e) &&
     imp.impact.elim false (fun i => validEffortImpact.contains i))

/-- One row of the `pain_points` batch insert. -/
structure PainPointRow where
  analysis_id : String
  category : Option String
  severity : Option String
  frequency : Option Int
  description : Option String
  representative_quotes : List String
  improvement : Option RawImprovement
deriving Repr, DecidableEq

/-- The row built for one validated pain point; quotes are truncated with
`representative_quotes.slice(0, 2)`. -/
def mkPainPointRow (analysisId : String) (pp : RawPainPoint) : PainPointRow :=
  { analysis_id := analysisId
    category := pp.category
    severity := pp.severity
    frequency := pp.frequency
    description := pp.description
    representative_quotes := (pp.representative_quotes.getD []).take 2
    improvement := pp.improvement }

/-- The observable outcome of one `analyse-reviews` invocation: whether the
HTTP response was 2xx, the progress events broadcast on the job topic, the
`analyses.status` updates written (in order), and the pain-point rows
inserted. -/
structure AnalyseRun where
  ok : Bool
  events : List Ev
  statusUpdates : List String
  persisted : List PainPointRow
deriving Repr

/-- The `analyse-reviews` handler after auth and body validation: set status
`analysing`, broadcast `ai_analysis_start`; on Gemini failure set status
`error` and return 503; validate the pain points, dropping invalid ones; with
zero valid points set status `error` and return 503; insert the valid rows as
one batch (`insertFails` models a database insert error); on success set
status `complete` and broadcast `complete` at 100. -/
def analyseReviewsHandler (analysisId : String)
    (gemini : Except String (List RawPainPoint)) (insertFails : Bool) : AnalyseRun :=
  match gemini with
  | .error _ =>
    ⟨false, [⟨"ai_analysis_start", 50⟩], ["analysing", "error"], []⟩
  | .ok pps =>
    let evs := [⟨"ai_analysis_start", 50⟩, ⟨"ai_analysis_complete", 85⟩]
    let valid := pps.filter isValidPainPoint
    if valid.isEmpty then
      ⟨false, evs, ["analysing", "error"], []⟩
    else
      let evs := evs ++ [⟨"saving_results", 95⟩]
      let rows := valid.map (mkPainPointRow analysisId)
      if insertFails then
        ⟨false, evs, ["analysing", "error"], []⟩
      else
        ⟨true, evs ++ [⟨"complete", 100⟩], ["analysing", "complete"], rows⟩

/-! ## The scrape-reviews edge function (`scrape-reviews/index.ts`) -/

/-- Model of JS `s.toLowerCase()`. -/
def jsToLower (s : String) : String :=
  ⟨s.data.map Char.toLower⟩

/-- The app-not-found test applied to error messages:
`message.includes('404') || message.toLowerCase().includes('not found')`. -/
def notFoundMsg (msg : String) : Bool :=
  jsIncludes msg "404" || jsIncludes (jsToLower msg) "not found"

/-- One row of the `review_cache` table. -/
structure CacheRow where
  app_id : String
  star_tier : Nat
  reviews : List ReviewItem
  cached_at : Int
deriving Repr, DecidableEq

/-- A raw review as returned by the remote Play-Store source; `none` models a
missing field. -/
structure RawReview where
  text : Option String
  score : Int
  date : String
  thumbsUpCount : Option Int
  userName : Option String
deriving Repr, DecidableEq

/-- The per-review mapping applied before caching and returning: copy text
(defaulting to empty), score, date and engagement count, and replace the
author identity with the fixed placeholder `reviewer`. -/
def sanitizeReview (r : RawReview) : ReviewItem :=
  { text := r.text.getD ""
    score := r.score
    date := r.date
    thumbsUpCount := r.thumbsUpCount.getD 0
    userName := "reviewer" }

/-- The outcome of one `gplay.reviews` call during a tier iteration. -/
inductive GplayOutcome where
  | throw (msg : String)
  | ok (raw : List RawReview)

/-- The outcome of the `gplay.app` metadata fetch. -/
inductive MetaOutcome where
  | ok
  | err (msg : String)

def REVIEWS_PER_TIER : Nat := 100

/-- The cache freshness window: 24 hours in milliseconds. -/
def FRESH_WINDOW_MS : Int := 24 * 60 * 60 * 1000

/-- The `review_cache` query: rows for this app with `star_tier` in
`{1, 2, 3}` and `cached_at >= now - 24h`. -/
def freshCacheRows (cache : List CacheRow) (appId : String) (now : Int) : List CacheRow :=
  cache.filter fun r =>
    r.app_id == appId && (r.star_tier == 1 || r.star_tier == 2 || r.star_tier == 3)
      && decide (now - FRESH_WINDOW_MS ≤ r.cached_at)

/-- The `cachedTiers` map built from the query rows (a JS `Map`, so a later
row for the same tier wins). -/
def cachedTierLookup (rows : List CacheRow) (t : Nat) : Option (List ReviewItem) :=
  ((rows.filter fun r => r.star_tier == t).getLast?).map (fun r => r.reviews)

def tierStage : Nat → String
  | 1 => "scraping_1star"
  | 2 => "scraping_2star"
  | 3 => "scraping_3star"
  | _ => ""

def tierPercent : Nat → Nat
  | 1 => 10
  | 2 => 20
  | 3 => 30
  | _ => 0

/-- Mutable state threaded through the tier loop. -/
structure LoopState where
  allReviews : List ReviewItem
  events : List Ev
  fetchedTiers : List Nat
  cacheWrites : List CacheRow
deriving Repr

/-- Result of one tier iteration: proceed to the next tier, or abort the
whole request with `app_not_found`. -/
inductive TierOut where
  | next (st : LoopState)
  | abortNotFound (st : LoopState)

/-- One iteration of the tier loop: use the cached reviews when the tier is
in the fresh-cache map, otherwise broadcast the tier stage and scrape; filter
to the requested star tier, fall back to all returned reviews when the filter
yields nothing; sanitize author identity; cache nonempty results; a 404-class
scrape error aborts the whole request, any other error leaves the tier
empty. -/
def runTier (appId : String) (now : Int) (g : Nat → GplayOutcome)
    (cm : Nat → Option (List ReviewItem)) (st : LoopState) (t : Nat) : TierOut :=
  match cm t with
  | some cached =>
    .next { st with
      allReviews := st.allReviews ++ cached
      events := st.events ++ [⟨tierStage t, tierPercent t⟩] }
  | none =>
    let st := { st with events := st.events ++ [⟨tierStage t, tierPercent t⟩] }
    match g t with
    | .throw msg =>
      if notFoundMsg msg then .abortNotFound st
      else .next { st with fetchedTiers := st.fetchedTiers ++ [t] }
    | .ok raw =>
      let filtered := ((raw.filter fun r => r.score == (t : Int)).take REVIEWS_PER_TIER).map
        sanitizeReview
      let tierReviews :=
        if filtered.isEmpty && !raw.isEmpty then
          (raw.take REVIEWS_PER_TIER).map sanitizeReview
        else filtered
      let writes :=
        if tierReviews.isEmpty then st.cacheWrites
        else st.cacheWrites ++ [⟨appId, t, tierReviews, now⟩]
      .next { st with
        fetchedTiers := st.fetchedTiers ++ [t]
        allReviews := st.allReviews ++ tierReviews
        cacheWrites := writes }

/-- The loop state carried by a tier-iteration result. -/
def TierOut.state : TierOut → LoopState
  | .next st => st
  | .abortNotFound st => st

/-- Does the metadata fetch outcome abort the request with `app_not_found`
(a thrown 404-class error)? -/
def metaAborts : MetaOutcome → Bool
  | .ok => false
  | .err msg => notFoundMsg msg

/-- Does this `gplay.reviews` outcome abort the whole request (a thrown
404-class error)? -/
def gplayAborts : GplayOutcome → Bool
  | .throw msg => notFoundMsg msg
  | .ok _ => false

/-- Two raw reviews that agree on everything except the author identity. -/
def SameModUser (r s : RawReview) : Prop :=
  r.text = s.text ∧ r.score = s.score ∧ r.date = s.date ∧ r.thumbsUpCount = s.thumbsUpCount

/-- Two remote outcomes that agree on everything except author identities. -/
def SameGplayModUser : GplayOutcome → GplayOutcome → Prop
  | .throw m, .throw m' => m = m'
  | .ok l, .ok l' => List.Forall₂ SameModUser l l'
  | _, _ => False

/-- The tier loop over the remaining tiers. -/
def runTiers (appId : String) (now : Int) (g : Nat → GplayOutcome)
    (cm : Nat → Option (List ReviewItem)) (st : LoopState) : List Nat → TierOut
  | [] => .next st
  | t :: ts =>
    match runTier appId now g cm st t with
    | .next st' => runTiers appId now g cm st' ts
    | .abortNotFound st' => .abortNotFound st'

/-- The observable outcome of one `scrape-reviews` invocation. -/
structure ScrapeRun where
  events : List Ev
  statusUpdates : List String
  fetchedTiers : List Nat
  cacheWrites : List CacheRow
  response : Except (String × Nat) (List ReviewItem × Bool)
deriving Repr

/-- The `scrape-reviews` handler after body validation: set status
`scraping` and broadcast it; a 404-class metadata failure aborts with
`app_not_found`; query the fresh 24-hour cache; when all three tiers are
cached return them immediately; otherwise run the tier loop, broadcast
`scraping_complete`, and fail with `scraping_failed` when nothing was
collected. -/
def scrapeReviewsRun (appId analysisId : String) (cache : List CacheRow) (now : Int)
    (meta : MetaOutcome) (g : Nat → GplayOutcome) : ScrapeRun :=
  let ev0 : List Ev := [⟨"scraping", 5⟩]
  if metaAborts meta then
    { events := ev0, statusUpdates := ["scraping", "error"], fetchedTiers := []
      cacheWrites := [], response := .error ("app_not_found", 404) }
  else
    let rows := freshCacheRows cache appId now
    let cm := cachedTierLookup rows
    if (cm 1).isSome && (cm 2).isSome && (cm 3).isSome then
      { events := ev0 ++ [⟨"scraping_complete", 40⟩], statusUpdates := ["scraping"]
        fetchedTiers := [], cacheWrites := []
        response := .ok ((cm 1).getD [] ++ ((cm 2).getD [] ++ (cm 3).getD []), true) }
    else
      match runTiers appId now g cm ⟨[], ev0, [], []⟩ [1, 2, 3] with
      | .abortNotFound st =>
        { events := st.events, statusUpdates := ["scraping", "error"]
          fetchedTiers := st.fetchedTiers, cacheWrites := st.cacheWrites
          response := .error ("app_not_found", 404) }
      | .next st =>
        let events := st.events ++ [⟨"scraping_complete", 40⟩]
        if st.allReviews.isEmpty then
          { events := events, statusUpdates := ["scraping", "error"]
            fetchedTiers := st.fetchedTiers, cacheWrites := st.cacheWrites
            response := .error ("scraping_failed", 500) }
        else
          { events := events, statusUpdates := ["scraping"]
            fetchedTiers := st.fetchedTiers, cacheWrites := st.cacheWrites
            response := .ok (st.allReviews, false) }

/-! ## The orchestrator (`run-analysis`, embedded in `_shared/supabase-admin.ts`) -/

/-- The result of a `callFunction` fetch to a sibling edge function: either
the fetch itself rejects, or the sibling ran and produced its outcome. -/
inductive CallOutcome (α : Type) where
  | fetchThrow (msg : String)
  | ran (result : α)

/-- The terminal error broadcast emitted by `runPipeline`. -/
def errorEvent : Ev := ⟨"error", 100⟩

/-- The observable outcome of one `runPipeline` background task: the full
event trace on the job topic (the orchestrator's own broadcasts plus those of
the sibling functions it invoked), the `analyses.status` updates (in order,
across all three functions), and whether step 3 incremented the owner's
`analysis_count`. -/
structure PipelineRun where
  events : List Ev
  statusUpdates : List String
  quotaIncremented : Bool
deriving Repr

/-- `runPipeline` from `run-analysis`: call `scrape-reviews`; on a non-ok
response or empty review list set status `error` and broadcast the terminal
error; call `analyse-reviews`; on a non-ok response set status `error` and
broadcast the terminal error; on success increment the owner's
`analysis_count` (the terminal `complete` broadcast was already emitted by
`analyse-reviews`); any unexpected exception is caught at the top level,
forcing status `error` and the terminal error broadcast. -/
def runPipeline (scrape : CallOutcome ScrapeRun) (analyse : CallOutcome AnalyseRun) :
    PipelineRun :=
  match scrape with
  | .fetchThrow _ => ⟨[errorEvent], ["error"], false⟩
  | .ran s =>
    match s.response with
    | .error _ =>
      ⟨s.events ++ [errorEvent], s.statusUpdates ++ ["error"], false⟩
    | .ok (reviews, _) =>
      if reviews.isEmpty then
        ⟨s.events ++ [errorEvent], s.statusUpdates ++ ["error"], false⟩
      else
        match analyse with
        | .fetchThrow _ =>
          ⟨s.events ++ [errorEvent], s.statusUpdates ++ ["error"], false⟩
        | .ran a =>
          if a.ok then
            ⟨s.events ++ a.events, s.statusUpdates ++ a.statusUpdates, true⟩
          else
            ⟨s.events ++ a.events ++ [errorEvent],
              s.statusUpdates ++ a.statusUpdates ++ ["error"], false⟩

/-- The scrape argument of `runPipeline` is a genuine `scrape-reviews` run
(or a rejected fetch). -/
def IsScrapeCall : CallOutcome ScrapeRun → Prop
  | .fetchThrow _ => True
  | .ran s => ∃ appId analysisId cache now meta g,
      s = scrapeReviewsRun appId analysisId cache now meta g

/-- The analyse argument of `runPipeline` is a genuine `analyse-reviews` run
(or a rejected fetch). -/
def IsAnalyseCall : CallOutcome AnalyseRun → Prop
  | .fetchThrow _ => True
  | .ran a => ∃ analysisId gemini insertFails,
      a = analyseReviewsHandler analysisId gemini insertFails

/-! ## Owner quota (`run-analysis` handler, free-tier check) -/

/-- The per-owner state the quota logic reads and writes: the plan, the
`users.analysis_count` counter, and the statuses of the owner's `analyses`
rows. -/
structure OwnerState where
  plan : String
  analysis_count : Nat
  analyses : List String
deriving Repr, DecidableEq

/-- The job-creation admission path of the `run-analysis` handler: when the
owner's plan is `free`, count the owner's `analyses` rows (all of them,
regardless of status) and reject with `free_tier_limit_reached` when the
count is at least 5; otherwise insert a new `pending` analyses row. -/
def createJob (st : OwnerState) : Except String OwnerState :=
  if st.plan == "free" && decide (5 ≤ st.analyses.length) then
    .error "free_tier_limit_reached"
  else
    .ok { st with analyses := st.analyses ++ ["pending"] }

/-- Step 3 of `runPipeline` applied to the owner: `analysis_count` is set to
its old value plus one exactly when the pipeline reached its success path. -/
def applyQuota (st : OwnerState) (run : PipelineRun) : OwnerState :=
  if run.quotaIncremented then { st with analysis_count := st.analysis_count + 1 }
  else st

/-! ## The client-side progress observer (`AnalysisProgress.tsx`) -/

/-- The observer's state. -/
structure ProgressState where
  percent : Nat
  stage : String
  isError : Bool
  isComplete : Bool
  isTimedOut : Bool
deriving Repr, DecidableEq

/-- The initial observer state. -/
def initialProgress : ProgressState :=
  ⟨0, "pending", false, false, false⟩

/-- The broadcast handler's `setState` for one received event: the percent
never regresses, the stage is overwritten, the timeout flag is cleared, and
the error/complete flags are set from the incoming stage. -/
def applyEvent (s : ProgressState) (e : Ev) : ProgressState :=
  { percent := max s.percent e.percent
    stage := e.stage
    isError := e.stage == "error"
    isComplete := e.stage == "complete"
    isTimedOut := false }

/-- The observer state after a sequence of received events. -/
def applyEvents (s : ProgressState) (evs : List Ev) : ProgressState :=
  evs.foldl applyEvent s

/-! ## Helper lemmas about the extraction client -/

theorem rateLimited_not_400 : jsIncludes "RateLimited" "Gemini API 400:" = false := by
  decide

theorem emptyContent_not_400 :
    jsIncludes "Gemini returned empty content" "Gemini API 400:" = false := by
  decide

/-- The message thrown for a 400 response always contains the abort marker
`Gemini API 400:`. -/
theorem gemini400_msg_includes (b : String) :
    jsIncludes ("Gemini API " ++ toString (400 : Nat) ++ ": " ++ b) "Gemini API 400:" = true := by
  show charsContain ("Gemini API 400:".data ++ (' ' :: b.data)) "Gemini API 400:".data = true
  exact charsContain_append_left _ _

/-- The retry loop makes at most `attempt + fuel` attempts in total. -/
theorem geminiAttempts_attempts_le (outcomes : Nat → GeminiOutcome) :
    ∀ fuel attempt sleeps le,
      (geminiAttempts outcomes fuel attempt sleeps le).2.1 ≤ attempt + fuel := by
  intro fuel
  induction fuel with
  | zero => intro attempt sleeps le; simp [geminiAttempts]
  | succ n ih =>
    intro attempt sleeps le
    simp only [geminiAttempts]
    cases h : attemptResult (outcomes attempt) with
    | ok ps => simp [h]
    | error msg =>
      simp only [h]
      split
      · simp
      · exact le_trans (ih (attempt + 1) _ msg) (by omega)

/-- The extraction client never makes more than `MAX_RETRIES = 4` attempts. -/
theorem analyseReviewsWithGemini_attempts_le (reviews : List ReviewItem)
    (outcomes : Nat → GeminiOutcome) :
    (analyseReviewsWithGemini reviews outcomes).attempts ≤ 4 := by
  rw [analyseReviewsWithGemini]
  split
  · simp
  · exact geminiAttempts_attempts_le outcomes MAX_RETRIES 0 [] _

/-!
## Claim C4 — retry/backoff behaviour of the extraction client
-/

/-- **C4.** For an extraction run in which the remote service returns HTTP 429
on the first three attempts and succeeds on the fourth, the extraction client
returns the successful result after exactly 4 attempts, sleeping before the
2nd, 3rd and 4th attempts with delays of 5s, 10s and 20s respectively, and it
never makes a 5th attempt for any failure sequence. -/
theorem c4_retry_backoff (reviews : List ReviewItem) (outcomes : Nat → GeminiOutcome)
    (b0 b1 b2 : String) (ps : List RawPainPoint)
    (h0 : outcomes 0 = .httpError 429 b0) (h1 : outcomes 1 = .httpError 429 b1)
    (h2 : outcomes 2 = .httpError 429 b2) (h3 : outcomes 3 = .success ps)
    (hne : reviewsForPrompt reviews ≠ []) :
    analyseReviewsWithGemini reviews outcomes = ⟨.ok ps, 4, [5000, 10000, 20000]⟩
    ∧ ∀ (rs : List ReviewItem) (os : Nat → GeminiOutcome),
        (analyseReviewsWithGemini rs os).attempts ≤ 4 := by
  have hie : (reviewsForPrompt reviews).isEmpty = false := by
    cases h : reviewsForPrompt reviews with
    | nil => exact absurd h hne
    | cons a l => rfl
  constructor
  · have hloop : geminiAttempts outcomes MAX_RETRIES 0 [] "Gemini call failed after all retries"
        = (.ok ps, 4, [5000, 10000, 20000]) := by
      simp [MAX_RETRIES, geminiAttempts, h0, h1, h2, h3, attemptResult, rateLimited_not_400,
        BASE_DELAY_MS]
    rw [analyseReviewsWithGemini, hie]
    simp [hloop]
  · exact fun rs os => analyseReviewsWithGemini_attempts_le rs os

/-- Witness for C4 at a concrete input: one long-enough review, a remote that
rate-limits three times then succeeds with an empty findings list. -/
theorem c4_retry_backoff_witness :
    analyseReviewsWithGemini
        [⟨"this app crashes every time I open it", 1, "2024-01-01", 3, "reviewer"⟩]
        (fun i => if i == 3 then .success [] else .httpError 429 "quota")
      = ⟨.ok [], 4, [5000, 10000, 20000]⟩
    ∧ ∀ (rs : List ReviewItem) (os : Nat → GeminiOutcome),
        (analyseReviewsWithGemini rs os).attempts ≤ 4 :=
  c4_retry_backoff _ _ "quota" "quota" "quota" [] rfl rfl rfl rfl (by decide)

/-!
## Claim C5 — no retry on a 400 response
-/

/-- **C5.** For every extraction run in which the remote service responds with
HTTP 400 on the first attempt, the extraction client makes exactly 1 attempt
and fails immediately with that error: no retry and no backoff sleep. -/
theorem c5_fatal_400 (reviews : List ReviewItem) (outcomes : Nat → GeminiOutcome)
    (body : String) (h0 : outcomes 0 = .httpError 400 body)
    (hne : reviewsForPrompt reviews ≠ []) :
    analyseReviewsWithGemini reviews outcomes =
      ⟨.error ("Gemini API 400: " ++ body), 1, []⟩ := by
  have hie : (reviewsForPrompt reviews).isEmpty = false := by
    cases h : reviewsForPrompt reviews with
    | nil => exact absurd h hne
    | cons a l => rfl
  have hloop : geminiAttempts outcomes MAX_RETRIES 0 [] "Gemini call failed after all retries"
      = (.error ("Gemini API " ++ toString (400 : Nat) ++ ": " ++ body), 1, []) := by
    simp [MAX_RETRIES, geminiAttempts, h0, attemptResult, gemini400_msg_includes]
  rw [analyseReviewsWithGemini, hie]
  simp [hloop]
  rfl

/-- Witness for C5 at a concrete input. -/
theorem c5_fatal_400_witness :
    analyseReviewsWithGemini
        [⟨"this app crashes every time I open it", 1, "2024-01-01", 3, "reviewer"⟩]
        (fun _ => .httpError 400 "API key not valid")
      = ⟨.error ("Gemini API 400: " ++ "API key not valid"), 1, []⟩ :=
  c5_fatal_400 _ _ "API key not valid" rfl (by decide)

/-!
## Claim C8 — preprocessing of the extraction input
-/

/-- **C8 counterexample.** The claim says samples whose text is 10 characters
or longer are kept; the code keeps only samples whose trimmed text is strictly
longer than 10 characters, so a 10-character sample is dropped: with it as the
only input, the payload is empty and the client fails with the no-valid-input
error after 0 remote attempts. -/
theorem c8_counterexample :
    "abcdefghij".length = 10
    ∧ keepsReview ⟨"abcdefghij", 1, "2024-01-01", 0, "reviewer"⟩ = false
    ∧ reviewsForPrompt [⟨"abcdefghij", 1, "2024-01-01", 0, "reviewer"⟩] = []
    ∧ analyseReviewsWithGemini [⟨"abcdefghij", 1, "2024-01-01", 0, "reviewer"⟩]
        (fun _ => .success []) = ⟨.error "No valid review text to analyse", 0, []⟩ := by
  refine ⟨by decide, by decide, by decide, ?_⟩
  rw [analyseReviewsWithGemini]
  simp [show (reviewsForPrompt [⟨"abcdefghij", 1, "2024-01-01", 0, "reviewer"⟩]).isEmpty = true
    by decide]

/-- If the trimmed text is longer than 10 characters, the text is nonempty
(trimming the empty string yields the empty string). -/
theorem text_ne_empty_of_trim_long (r : ReviewItem) (h : 10 < (jsTrim r.text).length) :
    r.text ≠ "" := by
  intro he
  rw [he] at h
  exact absurd h (by decide)

/-- **C8 (amended).** The preprocessing keeps exactly the samples whose
trimmed text is strictly longer than 10 characters (11 or more); every payload
line is built from such a sample with its trimmed text truncated to at most
500 characters; and when no samples remain the client fails with the
no-valid-input error without making any remote attempt. -/
theorem c8_amended (reviews : List ReviewItem) (outcomes : Nat → GeminiOutcome) :
    (∀ r : ReviewItem, keepsReview r = true ↔ 10 < (jsTrim r.text).length)
    ∧ (∀ r ∈ reviews, 10 < (jsTrim r.text).length →
        promptLine r ∈ reviewsForPrompt reviews)
    ∧ (∀ s ∈ reviewsForPrompt reviews, ∃ r ∈ reviews,
        10 < (jsTrim r.text).length
        ∧ s = "[" ++ toString r.score ++ "★] " ++ substringTo (jsTrim r.text) 500
        ∧ (substringTo (jsTrim r.text) 500).length ≤ 500)
    ∧ (reviewsForPrompt reviews = [] →
        analyseReviewsWithGemini reviews outcomes =
          ⟨.error "No valid review text to analyse", 0, []⟩) := by
  have hkeep : ∀ r : ReviewItem, keepsReview r = true ↔ 10 < (jsTrim r.text).length := by
    intro r
    constructor
    · intro h
      simp [keepsReview] at h
      exact h.2
    · intro h
      have hne := text_ne_empty_of_trim_long r h
      simp [keepsReview, h, hne]
  refine ⟨hkeep, ?_, ?_, ?_⟩
  · intro r hr hlen
    exact List.mem_map_of_mem promptLine (List.mem_filter.mpr ⟨hr, (hkeep r).mpr hlen⟩)
  · intro s hs
    rcases List.mem_map.mp hs with ⟨r, hrf, hmap⟩
    rcases List.mem_filter.mp hrf with ⟨hr, hkr⟩
    refine ⟨r, hr, (hkeep r).mp hkr, hmap.symm, ?_⟩
    show (((jsTrim r.text).data.take 500).length) ≤ 500
    rw [List.length_take]
    exact min_le_left _ _
  · intro hempty
    rw [analyseReviewsWithGemini]
    simp [hempty]

/-- Witness for C8 (amended) at a concrete input: the empty-payload branch
fails with the no-valid-input error and 0 attempts. -/
theorem c8_amended_witness :
    analyseReviewsWithGemini [⟨"too short", 2, "2024-01-01", 0, "reviewer"⟩]
        (fun _ => .success [])
      = ⟨.error "No valid review text to analyse", 0, []⟩ :=
  (c8_amended [⟨"too short", 2, "2024-01-01", 0, "reviewer"⟩] (fun _ => .success [])).2.2.2
    (by decide)

/-!
## Claim C3 — the progress observer state machine
-/

/-- Applying any event sequence never decreases the displayed percent. -/
theorem applyEvents_percent_mono (evs : List Ev) :
    ∀ s : ProgressState, s.percent ≤ (applyEvents s evs).percent := by
  induction evs with
  | nil => intro s; exact le_rfl
  | cons e t ih =>
    intro s
    calc s.percent ≤ (applyEvent s e).percent := le_max_left _ _
    _ ≤ (applyEvents (applyEvent s e) t).percent := ih (applyEvent s e)

/-- **C3 counterexample.** The claim says that once an `error` (respectively
`complete`) event has been received, `isError` (respectively `isComplete`)
stays true in every subsequent state.  The handler recomputes both flags from
the incoming stage on every event, so a later non-terminal event clears
them. -/
theorem c3_counterexample :
    (applyEvents initialProgress [⟨"error", 100⟩, ⟨"scraping_1star", 10⟩]).isError = false
    ∧ (applyEvents initialProgress [⟨"complete", 100⟩, ⟨"saving_results", 95⟩]).isComplete
        = false := by
  decide

/-- **C3 (amended).** Each received event `(stage, percent)` sets the
displayed percent to `max(currentPercent, percent)` — so the percent is
non-decreasing over any event sequence, including duplicated or reordered
events — sets the stage to the incoming stage, and sets `isError`
(respectively `isComplete`) to whether the incoming stage is `error`
(respectively `complete`): the flags reflect the most recent event, so they
are true after a terminal event and remain true for as long as no further
event arrives (the flags are not latched across later events). -/
theorem c3_amended (s : ProgressState) (e : Ev) (evs : List Ev) (pre : List Ev) :
    (applyEvent s e).percent = max s.percent e.percent
    ∧ (applyEvent s e).stage = e.stage
    ∧ ((applyEvent s e).isError = true ↔ e.stage = "error")
    ∧ ((applyEvent s e).isComplete = true ↔ e.stage = "complete")
    ∧ s.percent ≤ (applyEvents s evs).percent
    ∧ (applyEvents initialProgress (pre ++ [⟨"error", 100⟩])).isError = true
    ∧ (applyEvents initialProgress (pre ++ [⟨"complete", 100⟩])).isComplete = true := by
  refine ⟨rfl, rfl, ?_, ?_, applyEvents_percent_mono evs s, ?_, ?_⟩
  · show (e.stage == "error") = true ↔ e.stage = "error"
    exact beq_iff_eq
  · show (e.stage == "complete") = true ↔ e.stage = "complete"
    exact beq_iff_eq
  · rw [applyEvents, List.foldl_append]
    rfl
  · rw [applyEvents, List.foldl_append]
    rfl

/-!
## Claim C9 — at most two representative quotes are persisted
-/

theorem mkPainPointRow_quotes_le (analysisId : String) (pp : RawPainPoint) :
    (mkPainPointRow analysisId pp).representative_quotes.length ≤ 2 := by
  show ((pp.representative_quotes.getD []).take 2).length ≤ 2
  rw [List.length_take]
  exact min_le_left _ _

/-- **C9.** Every persisted finding carries at most 2 representative quotes;
in particular a finding for which the remote service returned 3 or more
quotes is persisted with exactly the first 2, and every row inserted by the
analyse-reviews handler obeys the bound. -/
theorem c9_quotes_truncated (analysisId : String) (pp : RawPainPoint) :
    (mkPainPointRow analysisId pp).representative_quotes.length ≤ 2
    ∧ (∀ q1 q2 q3 qs, pp.representative_quotes = some (q1 :: q2 :: q3 :: qs) →
        (mkPainPointRow analysisId pp).representative_quotes = [q1, q2])
    ∧ (∀ id gem ins, ∀ row ∈ (analyseReviewsHandler id gem ins).persisted,
        row.representative_quotes.length ≤ 2) := by
  refine ⟨mkPainPointRow_quotes_le analysisId pp, ?_, ?_⟩
  · intro q1 q2 q3 qs h
    show ((pp.representative_quotes.getD []).take 2) = [q1, q2]
    rw [h]
    rfl
  · intro id gem ins row hrow
    cases gem with
    | error e =>
      simp [analyseReviewsHandler] at hrow
    | ok pps =>
      rw [analyseReviewsHandler] at hrow
      by_cases hie : (pps.filter isValidPainPoint).isEmpty
      · simp [hie] at hrow
      · cases ins with
        | true => simp [hie] at hrow
        | false =>
          simp [hie] at hrow
          rcases hrow with ⟨q, _, hq⟩
          exact hq ▸ mkPainPointRow_quotes_le id q

/-- Witness for C9: a finding with 3 quotes is persisted with the first 2. -/
theorem c9_quotes_truncated_witness :
    (mkPainPointRow "a1"
        ⟨some "Bug", some "High", some 3, some "it crashes", some ["q1", "q2", "q3"],
          some ⟨some "fix it", some "Quick Win", some "Low", some "High"⟩⟩).representative_quotes
      = ["q1", "q2"] :=
  (c9_quotes_truncated "a1" _).2.1 "q1" "q2" "q3" [] rfl

/-!
## Claim C7 — validation, batch persistence and the zero-valid guard
-/

/-- **C7.** For every findings list returned by the extraction step, the
handler drops exactly the findings failing validation; when none pass, the
job takes the error path (status `error`, non-ok response, nothing
persisted); when at least one passes, all passing findings are persisted as
one batch tied to the job and the job reaches status `complete`. -/
theorem c7_validation_persistence (analysisId : String) (pps : List RawPainPoint) :
    (pps.filter isValidPainPoint = [] →
      (analyseReviewsHandler analysisId (.ok pps) false).ok = false
      ∧ (analyseReviewsHandler analysisId (.ok pps) false).statusUpdates = ["analysing", "error"]
      ∧ (analyseReviewsHandler analysisId (.ok pps) false).persisted = [])
    ∧ (pps.filter isValidPainPoint ≠ [] →
      (analyseReviewsHandler analysisId (.ok pps) false).ok = true
      ∧ (analyseReviewsHandler analysisId (.ok pps) false).statusUpdates
          = ["analysing", "complete"]
      ∧ (analyseReviewsHandler analysisId (.ok pps) false).persisted
          = (pps.filter isValidPainPoint).map (mkPainPointRow analysisId)
      ∧ (analyseReviewsHandler analysisId (.ok pps) false).persisted.length
          = (pps.filter isValidPainPoint).length
      ∧ ∀ row ∈ (analyseReviewsHandler analysisId (.ok pps) false).persisted,
          row.analysis_id = analysisId) := by
  constructor
  · intro h
    simp [analyseReviewsHandler, h]
  · intro h
    have hie : (pps.filter isValidPainPoint).isEmpty = false := by
      cases hh : pps.filter isValidPainPoint with
      | nil => exact absurd hh h
      | cons a l => rfl
    refine ⟨?_, ?_, ?_, ?_, ?_⟩ <;>
      simp [analyseReviewsHandler, hie, mkPainPointRow]
    intro row q hq hvalid heq
    rw [← heq]

/-- Witness for C7: 3 valid findings plus 1 invalid finding (missing
`improvement.phase`) yield exactly 3 persisted rows and status `complete`. -/
theorem c7_validation_persistence_witness :
    (analyseReviewsHandler "a1" (.ok
        [⟨some "Bug", some "High", some 5, some "crashes on launch", some ["q1"],
            some ⟨some "fix crash", some "Quick Win", some "Low", some "High"⟩⟩,
         ⟨some "UX Issue", some "Medium", some 3, some "confusing menu", some ["q2"],
            some ⟨some "redesign menu", some "Short-Term", some "Medium", some "Medium"⟩⟩,
         ⟨some "Performance", some "Low", some 2, some "slow load", some ["q3"],
            some ⟨some "optimize load", some "Long-Term", some "High", some "Low"⟩⟩,
         ⟨some "Bug", some "High", some 4, some "battery drain", some ["q4"],
            some ⟨some "profile battery", none, some "Low", some "High"⟩⟩]) false).ok = true
    ∧ (analyseReviewsHandler "a1" (.ok
        [⟨some "Bug", some "High", some 5, some "crashes on launch", some ["q1"],
            some ⟨some "fix crash", some "Quick Win", some "Low", some "High"⟩⟩,
         ⟨some "UX Issue", some "Medium", some 3, some "confusing menu", some ["q2"],
            some ⟨some "redesign menu", some "Short-Term", some "Medium", some "Medium"⟩⟩,
         ⟨some "Performance", some "Low", some 2, some "slow load", some ["q3"],
            some ⟨some "optimize load", some "Long-Term", some "High", some "Low"⟩⟩,
         ⟨some "Bug", some "High", some 4, some "battery drain", some ["q4"],
            some ⟨some "profile battery", none, some "Low", some "High"⟩⟩]) false).persisted.length
        = 3
    ∧ (analyseReviewsHandler "a1" (.ok
        [⟨some "Bug", some "High", some 5, some "crashes on launch", some ["q1"],
            some ⟨some "fix crash", some "Quick Win", some "Low", some "High"⟩⟩,
         ⟨some "UX Issue", some "Medium", some 3, some "confusing menu", some ["q2"],
            some ⟨some "redesign menu", some "Short-Term", some "Medium", some "Medium"⟩⟩,
         ⟨some "Performance", some "Low", some 2, some "slow load", some ["q3"],
            some ⟨some "optimize load", some "Long-Term", some "High", some "Low"⟩⟩,
         ⟨some "Bug", some "High", some 4, some "battery drain", some ["q4"],
            some ⟨some "profile battery", none, some "Low", some "High"⟩⟩]) false).statusUpdates
        = ["analysing", "complete"] := by
  have h := (c7_validation_persistence "a1"
      [⟨some "Bug", some "High", some 5, some "crashes on launch", some ["q1"],
          some ⟨some "fix crash", some "Quick Win", some "Low", some "High"⟩⟩,
       ⟨some "UX Issue", some "Medium", some 3, some "confusing menu", some ["q2"],
          some ⟨some "redesign menu", some "Short-Term", some "Medium", some "Medium"⟩⟩,
       ⟨some "Performance", some "Low", some 2, some "slow load", some ["q3"],
          some ⟨some "optimize load", some "Long-Term", some "High", some "Low"⟩⟩,
       ⟨some "Bug", some "High", some 4, some "battery drain", some ["q4"],
          some ⟨some "profile battery", none, some "Low", some "High"⟩⟩]).2 (by decide)
  refine ⟨h.1, ?_, h.2.1⟩
  rw [h.2.2.2.1]
  decide

/-!
## Claim C1 — exactly one terminal broadcast per job
-/

open InsightStore

theorem tierEvent_not_terminal (t : Nat) (p : Nat) :
    isTerminal ⟨tierStage t, p⟩ = false := by
  unfold tierStage
  split <;> rfl

theorem runTier_no_terminal (appId : String) (now : Int) (g : Nat → GplayOutcome)
    (cm : Nat → Option (List ReviewItem)) (st : LoopState) (t : Nat)
    (h : ∀ e ∈ st.events, isTerminal e = false) :
    ∀ e ∈ (runTier appId now g cm st t).state.events, isTerminal e = false := by
  unfold runTier
  cases hcm : cm t with
  | some cached =>
    intro e he
    simp only [TierOut.state, List.mem_append, List.mem_singleton] at he
    rcases he with he | he
    · exact h e he
    · rw [he]; exact tierEvent_not_terminal t _
  | none =>
    have hext : ∀ e ∈ st.events ++ [(⟨tierStage t, tierPercent t⟩ : Ev)],
        isTerminal e = false := by
      intro e he
      rcases List.mem_append.mp he with he | he
      · exact h e he
      · rw [List.mem_singleton.mp he]; exact tierEvent_not_terminal t _
    cases g t with
    | throw msg =>
      by_cases hnf : notFoundMsg msg
      · intro e he
        simp only [hnf, TierOut.state, if_true] at he
        exact hext e he
      · intro e he
        simp only [hnf, TierOut.state, if_false] at he
        exact hext e he
    | ok raw =>
      intro e he
      simp only [TierOut.state] at he
      exact hext e he

theorem runTiers_no_terminal (appId : String) (now : Int) (g : Nat → GplayOutcome)
    (cm : Nat → Option (List ReviewItem)) :
    ∀ (ts : List Nat) (st : LoopState), (∀ e ∈ st.events, isTerminal e = false) →
      ∀ e ∈ (runTiers appId now g cm st ts).state.events, isTerminal e = false := by
  intro ts
  induction ts with
  | nil => intro st h; exact h
  | cons t ts ih =>
    intro st h
    have hstep := runTier_no_terminal appId now g cm st t h
    rw [runTiers]
    cases hrt : runTier appId now g cm st t with
    | next st' =>
      rw [hrt] at hstep
      exact ih st' hstep
    | abortNotFound st' =>
      rw [hrt] at hstep
      exact hstep

theorem scrapeRun_no_terminal (appId analysisId : String) (cache : List CacheRow) (now : Int)
    (meta : MetaOutcome) (g : Nat → GplayOutcome) :
    ∀ e ∈ (scrapeReviewsRun appId analysisId cache now meta g).events,
      isTerminal e = false := by
  intro e he
  unfold scrapeReviewsRun at he
  have hloop := runTiers_no_terminal appId now g
      (cachedTierLookup (freshCacheRows cache appId now))
      [1, 2, 3] ⟨[], [⟨"scraping", 5⟩], [], []⟩
      (by intro x hx; rw [List.mem_singleton.mp hx]; rfl)
  split at he
  · rw [List.mem_singleton.mp he]; rfl
  · simp only [] at he
    split at he
    · rcases List.mem_append.mp he with h1 | h1
      · rw [List.mem_singleton.mp h1]; rfl
      · rw [List.mem_singleton.mp h1]; rfl
    · cases hrt : runTiers appId now g (cachedTierLookup (freshCacheRows cache appId now))
          ⟨[], [⟨"scraping", 5⟩], [], []⟩ [1, 2, 3] with
      | abortNotFound st =>
        rw [hrt] at he hloop
        simp only [TierOut.state] at hloop
        simp only [] at he
        exact hloop e he
      | next st =>
        rw [hrt] at he hloop
        simp only [TierOut.state] at hloop
        simp only [] at he
        split at he
        · rcases List.mem_append.mp he with h1 | h1
          · exact hloop e h1
          · rw [List.mem_singleton.mp h1]; rfl
        · rcases List.mem_append.mp he with h1 | h1
          · exact hloop e h1
          · rw [List.mem_singleton.mp h1]; rfl

theorem analyseHandler_events_terminal (id : String) (gem : Except String (List RawPainPoint))
    (ins : Bool) :
    (analyseReviewsHandler id gem ins).events.filter isTerminal
      = (if (analyseReviewsHandler id gem ins).ok then [⟨"complete", 100⟩] else [])
    ∧ (analyseReviewsHandler id gem ins).statusUpdates
      = (if (analyseReviewsHandler id gem ins).ok then ["analysing", "complete"]
          else ["analysing", "error"]) := by
  cases gem with
  | error e => constructor <;> rfl
  | ok pps =>
    rw [analyseReviewsHandler]
    by_cases hie : (pps.filter isValidPainPoint).isEmpty
    · simp only [hie, if_true]
      constructor <;> rfl
    · simp only [hie, Bool.false_eq_true, if_false]
      cases ins with
      | true => constructor <;> rfl
      | false => constructor <;> rfl

theorem c1_terminal_broadcast (scrape : CallOutcome ScrapeRun) (analyse : CallOutcome AnalyseRun)
    (hs : IsScrapeCall scrape) (ha : IsAnalyseCall analyse) :
    ((runPipeline scrape analyse).events.filter isTerminal).length = 1
    ∧ ((runPipeline scrape analyse).events.filter isTerminal = [⟨"complete", 100⟩]
        ↔ (runPipeline scrape analyse).statusUpdates.getLast? = some "complete") := by
  cases scrape with
  | fetchThrow m =>
    have hrw : runPipeline (.fetchThrow m) analyse = ⟨[errorEvent], ["error"], false⟩ := rfl
    rw [hrw]
    exact ⟨rfl, by constructor <;> (intro h; exact absurd h (by decide))⟩
  | ran s =>
    rcases hs with ⟨appId, analysisId, cache, now, meta, g, hseq⟩
    have hsnt : s.events.filter isTerminal = [] := by
      rw [List.filter_eq_nil_iff]
      intro e he
      have he' : e ∈ (scrapeReviewsRun appId analysisId cache now meta g).events := by
        rw [← hseq]; exact he
      have := scrapeRun_no_terminal appId analysisId cache now meta g e he'
      simp [this]
    obtain ⟨sev, sst, sft, scw, sresp⟩ := s
    simp only [] at hsnt
    cases sresp with
    | error err =>
      constructor
      · show ((sev ++ [errorEvent]).filter isTerminal).length = 1
        rw [List.filter_append, hsnt]
        rfl
      · constructor
        · intro h
          rw [show ((runPipeline (.ran ⟨sev, sst, sft, scw, .error err⟩) analyse).events)
              = sev ++ [errorEvent] from rfl, List.filter_append, hsnt] at h
          exact absurd h (by decide)
        · intro h
          rw [show ((runPipeline (.ran ⟨sev, sst, sft, scw, .error err⟩) analyse).statusUpdates)
              = sst ++ ["error"] from rfl, List.getLast?_concat] at h
          exact absurd h (by decide)
    | ok pair =>
      obtain ⟨reviews, cached⟩ := pair
      by_cases hemp : reviews.isEmpty
      · have hrw : runPipeline (.ran ⟨sev, sst, sft, scw, .ok (reviews, cached)⟩) analyse
            = ⟨sev ++ [errorEvent], sst ++ ["error"], false⟩ := by
          rw [runPipeline.eq_def]
          simp [hemp]
        rw [hrw]
        constructor
        · rw [List.filter_append, hsnt]; rfl
        · constructor
          · intro h
            rw [List.filter_append, hsnt] at h
            exact absurd h (by decide)
          · intro h
            rw [List.getLast?_concat] at h
            exact absurd h (by decide)
      · cases analyse with
        | fetchThrow m =>
          have hrw : runPipeline (.ran ⟨sev, sst, sft, scw, .ok (reviews, cached)⟩) (.fetchThrow m)
              = ⟨sev ++ [errorEvent], sst ++ ["error"], false⟩ := by
            rw [runPipeline.eq_def]
            simp [hemp]
          rw [hrw]
          constructor
          · rw [List.filter_append, hsnt]; rfl
          · constructor
            · intro h
              rw [List.filter_append, hsnt] at h
              exact absurd h (by decide)
            · intro h
              rw [List.getLast?_concat] at h
              exact absurd h (by decide)
        | ran a =>
          rcases ha with ⟨aid, gem, ins, haeq⟩
          have hterm := analyseHandler_events_terminal aid gem ins
          rw [← haeq] at hterm
          cases hok : a.ok with
          | true =>
            have hrw : runPipeline (.ran ⟨sev, sst, sft, scw, .ok (reviews, cached)⟩) (.ran a)
                = ⟨sev ++ a.events, sst ++ a.statusUpdates, true⟩ := by
              rw [runPipeline.eq_def]
              simp [hemp, hok]
            rw [hrw]
            rw [hok] at hterm
            simp only [if_true] at hterm
            constructor
            · rw [List.filter_append, hsnt, hterm.1]; rfl
            · constructor
              · intro _
                rw [hterm.2, show sst ++ ["analysing", "complete"]
                    = (sst ++ ["analysing"]) ++ ["complete"] by rw [List.append_assoc]; rfl,
                  List.getLast?_concat]
              · intro _
                rw [List.filter_append, hsnt, hterm.1]
                rfl
          | false =>
            have hrw : runPipeline (.ran ⟨sev, sst, sft, scw, .ok (reviews, cached)⟩) (.ran a)
                = ⟨sev ++ a.events ++ [errorEvent], sst ++ a.statusUpdates ++ ["error"], false⟩ := by
              rw [runPipeline.eq_def]
              simp [hemp, hok]
            rw [hrw]
            rw [hok] at hterm
            simp only [Bool.false_eq_true, if_false] at hterm
            constructor
            · rw [List.filter_append, List.filter_append, hsnt, hterm.1]; rfl
            · constructor
              · intro h
                rw [List.filter_append, List.filter_append, hsnt, hterm.1] at h
                exact absurd h (by decide)
              · intro h
                rw [List.getLast?_concat] at h
                exact absurd h (by decide)

/-- Witness for C1 at a concrete input: a genuine scrape run over an empty
cache whose remote returns one review, followed by a genuine analyse run
with one valid finding. -/
theorem c1_terminal_broadcast_witness :
    ((runPipeline
        (.ran (scrapeReviewsRun "com.example.app" "job1" [] 0 .ok
          (fun _ => .ok [⟨some "great app but it crashes a lot", 1, "2024-01-01",
            some 2, some "Alice"⟩])))
        (.ran (analyseReviewsHandler "job1" (.ok
          [⟨some "Bug", some "High", some 5, some "crashes on launch", some ["q1"],
            some ⟨some "fix crash", some "Quick Win", some "Low", some "High"⟩⟩]) false))
      ).events.filter isTerminal).length = 1
    ∧ ((runPipeline
        (.ran (scrapeReviewsRun "com.example.app" "job1" [] 0 .ok
          (fun _ => .ok [⟨some "great app but it crashes a lot", 1, "2024-01-01",
            some 2, some "Alice"⟩])))
        (.ran (analyseReviewsHandler "job1" (.ok
          [⟨some "Bug", some "High", some 5, some "crashes on launch", some ["q1"],
            some ⟨some "fix crash", some "Quick Win", some "Low", some "High"⟩⟩]) false))
      ).events.filter isTerminal = [⟨"complete", 100⟩]
      ↔ (runPipeline
        (.ran (scrapeReviewsRun "com.example.app" "job1" [] 0 .ok
          (fun _ => .ok [⟨some "great app but it crashes a lot", 1, "2024-01-01",
            some 2, some "Alice"⟩])))
        (.ran (analyseReviewsHandler "job1" (.ok
          [⟨some "Bug", some "High", some 5, some "crashes on launch", some ["q1"],
            some ⟨some "fix crash", some "Quick Win", some "Low", some "High"⟩⟩]) false))
      ).statusUpdates.getLast? = some "complete") :=
  c1_terminal_broadcast
    (.ran (scrapeReviewsRun "com.example.app" "job1" [] 0 .ok
      (fun _ => .ok [⟨some "great app but it crashes a lot", 1, "2024-01-01",
        some 2, some "Alice"⟩])))
    (.ran (analyseReviewsHandler "job1" (.ok
      [⟨some "Bug", some "High", some 5, some "crashes on launch", some ["q1"],
        some ⟨some "fix crash", some "Quick Win", some "Low", some "High"⟩⟩]) false))
    ⟨"com.example.app", "job1", [], 0, .ok, _, rfl⟩
    ⟨"job1", _, false, rfl⟩

/-!
## Claim C2 — quota accounting and the free-tier admission check
-/

/-- The pipeline increments the owner quota counter exactly when its final
status update is `complete`. -/
theorem runPipeline_quota_status (scrape : CallOutcome ScrapeRun)
    (analyse : CallOutcome AnalyseRun) (ha : IsAnalyseCall analyse) :
    (runPipeline scrape analyse).quotaIncremented = true
      ↔ (runPipeline scrape analyse).statusUpdates.getLast? = some "complete" := by
  cases scrape with
  | fetchThrow m =>
    have hrw : runPipeline (.fetchThrow m) analyse = ⟨[errorEvent], ["error"], false⟩ := rfl
    rw [hrw]
    exact ⟨fun h => absurd h (by decide), fun h => absurd h (by decide)⟩
  | ran s =>
    obtain ⟨sev, sst, sft, scw, sresp⟩ := s
    cases sresp with
    | error err =>
      have hrw : runPipeline (.ran ⟨sev, sst, sft, scw, .error err⟩) analyse
          = ⟨sev ++ [errorEvent], sst ++ ["error"], false⟩ := rfl
      rw [hrw]
      constructor
      · intro h; simp at h
      · intro h
        rw [List.getLast?_concat] at h
        exact absurd h (by decide)
    | ok pair =>
      obtain ⟨reviews, cached⟩ := pair
      by_cases hemp : reviews.isEmpty
      · have hrw : runPipeline (.ran ⟨sev, sst, sft, scw, .ok (reviews, cached)⟩) analyse
            = ⟨sev ++ [errorEvent], sst ++ ["error"], false⟩ := by
          rw [runPipeline.eq_def]
          simp [hemp]
        rw [hrw]
        constructor
        · intro h; simp at h
        · intro h
          rw [List.getLast?_concat] at h
          exact absurd h (by decide)
      · cases analyse with
        | fetchThrow m =>
          have hrw : runPipeline (.ran ⟨sev, sst, sft, scw, .ok (reviews, cached)⟩)
              (.fetchThrow m) = ⟨sev ++ [errorEvent], sst ++ ["error"], false⟩ := by
            rw [runPipeline.eq_def]
            simp [hemp]
          rw [hrw]
          constructor
          · intro h; simp at h
          · intro h
            rw [List.getLast?_concat] at h
            exact absurd h (by decide)
        | ran a =>
          rcases ha with ⟨aid, gem, ins, haeq⟩
          have hterm := analyseHandler_events_terminal aid gem ins
          rw [← haeq] at hterm
          cases hok : a.ok with
          | true =>
            have hrw : runPipeline (.ran ⟨sev, sst, sft, scw, .ok (reviews, cached)⟩) (.ran a)
                = ⟨sev ++ a.events, sst ++ a.statusUpdates, true⟩ := by
              rw [runPipeline.eq_def]
              simp [hemp, hok]
            rw [hrw]
            rw [hok] at hterm
            simp only [if_true] at hterm
            constructor
            · intro _
              rw [hterm.2, show sst ++ ["analysing", "complete"]
                  = (sst ++ ["analysing"]) ++ ["complete"] by rw [List.append_assoc]; rfl,
                List.getLast?_concat]
            · intro _; rfl
          | false =>
            have hrw : runPipeline (.ran ⟨sev, sst, sft, scw, .ok (reviews, cached)⟩) (.ran a)
                = ⟨sev ++ a.events ++ [errorEvent], sst ++ a.statusUpdates ++ ["error"],
                    false⟩ := by
              rw [runPipeline.eq_def]
              simp [hemp, hok]
            rw [hrw]
            constructor
            · intro h; simp at h
            · intro h
              rw [List.getLast?_concat] at h
              exact absurd h (by decide)

/-- **C2 counterexample.** The claim says failed jobs never cause a
subsequent job creation to be rejected with the quota error.  The admission
check counts all `analyses` rows of the owner regardless of status, so an
owner on the free plan with 5 errored jobs (quota counter still 0) is
rejected. -/
theorem c2_counterexample :
    createJob ⟨"free", 0, ["error", "error", "error", "error", "error"]⟩
      = .error "free_tier_limit_reached" := rfl

/-- **C2 (amended).** The owner quota counter `analysis_count` is
incremented exactly when the pipeline ends with status `complete` — a job
that ends in `error` leaves the counter unchanged — but the free-tier
admission check counts all `analyses` rows of the owner, including failed
jobs, so an owner on the free plan is rejected with `free_tier_limit_reached`
exactly when at least 5 rows exist, whatever their statuses. -/
theorem c2_quota_accounting (st : OwnerState) (scrape : CallOutcome ScrapeRun)
    (analyse : CallOutcome AnalyseRun) (ha : IsAnalyseCall analyse) :
    ((runPipeline scrape analyse).statusUpdates.getLast? = some "complete" →
      (applyQuota st (runPipeline scrape analyse)).analysis_count = st.analysis_count + 1)
    ∧ ((runPipeline scrape analyse).statusUpdates.getLast? ≠ some "complete" →
      (applyQuota st (runPipeline scrape analyse)).analysis_count = st.analysis_count)
    ∧ (∀ s : OwnerState, createJob s = .error "free_tier_limit_reached"
        ↔ (s.plan = "free" ∧ 5 ≤ s.analyses.length))
    ∧ (∀ s : OwnerState, s.plan = "free" → 5 ≤ s.analyses.length →
        (∀ st' ∈ s.analyses, st' = "error") →
        createJob s = .error "free_tier_limit_reached") := by
  have hq := runPipeline_quota_status scrape analyse ha
  have hcj : ∀ s : OwnerState, createJob s = .error "free_tier_limit_reached"
      ↔ (s.plan = "free" ∧ 5 ≤ s.analyses.length) := by
    intro s
    constructor
    · intro h
      unfold createJob at h
      split at h
      · rename_i hc
        simp only [Bool.and_eq_true, beq_iff_eq, decide_eq_true_eq] at hc
        exact hc
      · exact absurd h (by simp)
    · intro ⟨h1, h2⟩
      unfold createJob
      rw [if_pos]
      simp only [Bool.and_eq_true, beq_iff_eq, decide_eq_true_eq]
      exact ⟨h1, h2⟩
  refine ⟨?_, ?_, hcj, ?_⟩
  · intro h
    unfold applyQuota
    rw [if_pos (hq.mpr h)]
  · intro h
    have hqi : (runPipeline scrape analyse).quotaIncremented = false := by
      cases hb : (runPipeline scrape analyse).quotaIncremented
      · rfl
      · exact absurd (hq.mp hb) h
    unfold applyQuota
    rw [hqi]
    rfl
  · intro s h1 h2 _
    exact (hcj s).mpr ⟨h1, h2⟩

/-- Witness for C2 (amended) at concrete inputs: a successful pipeline run
increments the counter from 2 to 3, and a failed run leaves it at 2. -/
theorem c2_quota_accounting_witness :
    (applyQuota ⟨"free", 2, ["complete", "error"]⟩
        (runPipeline (.ran ⟨[], [], [], [], .ok ([⟨"great app but it crashes a lot", 1,
            "2024-01-01", 2, "reviewer"⟩], false)⟩)
          (.ran (analyseReviewsHandler "job1" (.ok
            [⟨some "Bug", some "High", some 5, some "crashes on launch", some ["q1"],
              some ⟨some "fix crash", some "Quick Win", some "Low", some "High"⟩⟩])
            false)))).analysis_count = 3
    ∧ (applyQuota ⟨"free", 2, ["complete", "error"]⟩
        (runPipeline (.fetchThrow "network down")
          (.ran (analyseReviewsHandler "job1" (.error "boom")
            false)))).analysis_count = 2 := by
  constructor
  · exact (c2_quota_accounting ⟨"free", 2, ["complete", "error"]⟩
      (.ran ⟨[], [], [], [], .ok ([⟨"great app but it crashes a lot", 1,
          "2024-01-01", 2, "reviewer"⟩], false)⟩)
      (.ran (analyseReviewsHandler "job1" (.ok
        [⟨some "Bug", some "High", some 5, some "crashes on launch", some ["q1"],
          some ⟨some "fix crash", some "Quick Win", some "Low", some "High"⟩⟩]) false))
      ⟨"job1", _, false, rfl⟩).1 (by decide)
  · exact (c2_quota_accounting ⟨"free", 2, ["complete", "error"]⟩
      (.fetchThrow "network down")
      (.ran (analyseReviewsHandler "job1" (.error "boom") false))
      ⟨"job1", _, false, rfl⟩).2.1 (by decide)


/-!
## Claim C6 — the 24-hour cache window
-/


theorem cachedTierLookup_fresh_iff (cache : List CacheRow) (appId : String) (now : Int)
    (t : Nat) (ht : t = 1 ∨ t = 2 ∨ t = 3) :
    (cachedTierLookup (freshCacheRows cache appId now) t).isSome = true
      ↔ ∃ r ∈ cache, r.app_id = appId ∧ r.star_tier = t
          ∧ now - FRESH_WINDOW_MS ≤ r.cached_at := by
  unfold cachedTierLookup freshCacheRows
  rw [Option.isSome_map', List.filter_filter]
  constructor
  · intro h
    have hne : List.filter _ cache ≠ [] := List.getLast?_isSome.mp h
    obtain ⟨r, hr⟩ := List.exists_mem_of_ne_nil _ hne
    obtain ⟨hrc, hpred⟩ := List.mem_filter.mp hr
    simp only [Bool.and_eq_true, beq_iff_eq, decide_eq_true_eq, Bool.or_eq_true] at hpred
    exact ⟨r, hrc, hpred.2.1.1, hpred.1, hpred.2.2⟩
  · intro hex
    obtain ⟨r, hrc, h1, h2, h3⟩ := hex
    have hr : r ∈ List.filter (fun a =>
        (a.star_tier == t) && (a.app_id == appId &&
          (a.star_tier == 1 || a.star_tier == 2 || a.star_tier == 3) &&
          decide (now - FRESH_WINDOW_MS ≤ a.cached_at))) cache := by
      refine List.mem_filter.mpr ⟨hrc, ?_⟩
      simp only [Bool.and_eq_true, beq_iff_eq, decide_eq_true_eq, Bool.or_eq_true]
      refine ⟨h2, ⟨h1, ?_⟩, h3⟩
      rcases ht with h | h | h <;> rw [h] at h2 <;> simp [h2]
    have hne : List.filter (fun a =>
        (a.star_tier == t) && (a.app_id == appId &&
          (a.star_tier == 1 || a.star_tier == 2 || a.star_tier == 3) &&
          decide (now - FRESH_WINDOW_MS ≤ a.cached_at))) cache ≠ [] := by
      intro hnil
      rw [hnil] at hr
      exact absurd hr (List.not_mem_nil r)
    exact List.getLast?_isSome.mpr hne

theorem runTier_next_fetched (appId : String) (now : Int) (g : Nat → GplayOutcome)
    (cm : Nat → Option (List ReviewItem)) (st : LoopState) (t : Nat)
    (hg : gplayAborts (g t) = false) :
    ∃ st', runTier appId now g cm st t = .next st'
      ∧ st'.fetchedTiers = st.fetchedTiers ++ (if (cm t).isSome then [] else [t]) := by
  unfold runTier
  cases cm t with
  | some cached =>
    refine ⟨_, rfl, ?_⟩
    simp
  | none =>
    cases hgt : g t with
    | throw msg =>
      rw [hgt] at hg
      simp only [gplayAborts] at hg
      refine ⟨⟨st.allReviews, st.events ++ [⟨tierStage t, tierPercent t⟩],
        st.fetchedTiers ++ [t], st.cacheWrites⟩, ?_, by simp⟩
      simp [hg]
    | ok raw =>
      refine ⟨_, rfl, ?_⟩
      simp

theorem runTiers_next_fetched (appId : String) (now : Int) (g : Nat → GplayOutcome)
    (cm : Nat → Option (List ReviewItem)) (hg : ∀ u, gplayAborts (g u) = false) :
    ∀ (ts : List Nat) (st : LoopState), ∃ st',
      runTiers appId now g cm st ts = .next st'
      ∧ st'.fetchedTiers = st.fetchedTiers ++ ts.filter (fun u => !(cm u).isSome) := by
  intro ts
  induction ts with
  | nil => intro st; exact ⟨st, rfl, by simp⟩
  | cons t ts ih =>
    intro st
    obtain ⟨st1, h1, hf1⟩ := runTier_next_fetched appId now g cm st t (hg t)
    obtain ⟨st2, h2, hf2⟩ := ih st1
    refine ⟨st2, ?_, ?_⟩
    · simp only [runTiers, h1]
      exact h2
    · rw [hf2, hf1, List.filter_cons]
      by_cases hc : (cm t).isSome
      · simp [hc]
      · simp [hc]

/-- **C6 (amended).** For a collection request that is not aborted by an
app-not-found error, a tier is served from cache (no remote fetch for that
tier) exactly when a cache row for (subject, tier) exists whose `cached_at`
is at most 24 hours before now (`cached_at >= now - 24h`); a tier with no
such row is fetched remotely.  An entry written at T is thus used at T+23h
and not used at T+25h (the boundary at exactly 24h counts as fresh).  When
all three tiers are fresh, the cached samples are returned immediately with
no fetch at all. -/
theorem c6_cache_freshness (appId analysisId : String) (cache : List CacheRow) (now : Int)
    (g : Nat → GplayOutcome) (t : Nat)
    (hg : ∀ u, gplayAborts (g u) = false) (ht : t = 1 ∨ t = 2 ∨ t = 3) :
    (t ∈ (scrapeReviewsRun appId analysisId cache now .ok g).fetchedTiers
      ↔ ¬ ∃ r ∈ cache, r.app_id = appId ∧ r.star_tier = t
            ∧ now - FRESH_WINDOW_MS ≤ r.cached_at)
    ∧ (∀ cs1 cs2 cs3, cachedTierLookup (freshCacheRows cache appId now) 1 = some cs1 →
        cachedTierLookup (freshCacheRows cache appId now) 2 = some cs2 →
        cachedTierLookup (freshCacheRows cache appId now) 3 = some cs3 →
        (scrapeReviewsRun appId analysisId cache now .ok g).response
          = .ok (cs1 ++ (cs2 ++ cs3), true)
        ∧ (scrapeReviewsRun appId analysisId cache now .ok g).fetchedTiers = []) := by
  have hiff := cachedTierLookup_fresh_iff cache appId now t ht
  have hneg : ((cachedTierLookup (freshCacheRows cache appId now) t).isSome = false)
      ↔ ¬ ∃ r ∈ cache, r.app_id = appId ∧ r.star_tier = t
          ∧ now - FRESH_WINDOW_MS ≤ r.cached_at := by
    rw [← hiff]
    constructor
    · intro h hT
      rw [h] at hT
      cases hT
    · intro h
      cases hs : (cachedTierLookup (freshCacheRows cache appId now) t).isSome
      · rfl
      · exact absurd hs h
  constructor
  · unfold scrapeReviewsRun
    simp only [metaAborts, Bool.false_eq_true, if_false]
    by_cases hfc : ((cachedTierLookup (freshCacheRows cache appId now) 1).isSome
        && (cachedTierLookup (freshCacheRows cache appId now) 2).isSome
        && (cachedTierLookup (freshCacheRows cache appId now) 3).isSome) = true
    · rw [if_pos hfc]
      constructor
      · intro hmem
        exact absurd hmem (List.not_mem_nil t)
      · intro hno
        exfalso
        apply hno
        apply hiff.mp
        simp only [Bool.and_eq_true] at hfc
        rcases ht with h | h | h <;> rw [h]
        · exact hfc.1.1
        · exact hfc.1.2
        · exact hfc.2
    · rw [if_neg hfc]
      obtain ⟨st1, hrun, hft⟩ := runTiers_next_fetched appId now g
        (cachedTierLookup (freshCacheRows cache appId now)) hg [1, 2, 3]
        ⟨[], [⟨"scraping", 5⟩], [], []⟩
      rw [hrun]
      have hmem : t ∈ st1.fetchedTiers
          ↔ (cachedTierLookup (freshCacheRows cache appId now) t).isSome = false := by
        rw [hft]
        simp only [List.nil_append]
        constructor
        · intro hm
          rcases List.mem_filter.mp hm with ⟨_, hp⟩
          simpa using hp
        · intro hn
          refine List.mem_filter.mpr ⟨?_, by simpa using hn⟩
          rcases ht with h | h | h <;> rw [h] <;> decide
      by_cases he : st1.allReviews.isEmpty
      · simp only [he, if_true]
        exact hmem.trans hneg
      · simp only [he, Bool.false_eq_true, if_false]
        exact hmem.trans hneg
  · intro cs1 cs2 cs3 h1 h2 h3
    unfold scrapeReviewsRun
    simp only [metaAborts, Bool.false_eq_true, if_false]
    rw [if_pos (by rw [h1, h2, h3]; rfl)]
    rw [h1, h2, h3]
    exact ⟨rfl, rfl⟩

/-- **C6 counterexample.** The claim says an entry 24 hours old or older is
treated as absent and a remote fetch is made.  The query keeps rows with
`cached_at >= now - 24h`, so an entry exactly 24 hours old is still served
from cache: with a tier-1 entry written at time 0 and a request at exactly
24h (86400000 ms), tier 1 is not fetched and the cached sample is returned. -/
theorem c6_counterexample :
    1 ∉ (scrapeReviewsRun "com.example.app" "a1"
        [⟨"com.example.app", 1, [⟨"a sample review text here", 1, "2024-01-01", 0, "reviewer"⟩], 0⟩]
        86400000 .ok (fun _ => .ok [])).fetchedTiers
    ∧ (scrapeReviewsRun "com.example.app" "a1"
        [⟨"com.example.app", 1, [⟨"a sample review text here", 1, "2024-01-01", 0, "reviewer"⟩], 0⟩]
        86400000 .ok (fun _ => .ok [])).response
      = .ok ([⟨"a sample review text here", 1, "2024-01-01", 0, "reviewer"⟩], false) := by
  constructor
  · decide
  · rfl

/-- Witness for C6 (amended): an entry written at time 0 is used (tier not
fetched) at T+23h and not used (tier fetched) at T+25h. -/
theorem c6_cache_freshness_witness :
    1 ∉ (scrapeReviewsRun "com.example.app" "a1"
        [⟨"com.example.app", 1, [⟨"a sample review text here", 1, "2024-01-01", 0, "reviewer"⟩], 0⟩]
        82800000 .ok (fun _ => .ok [])).fetchedTiers
    ∧ 1 ∈ (scrapeReviewsRun "com.example.app" "a1"
        [⟨"com.example.app", 1, [⟨"a sample review text here", 1, "2024-01-01", 0, "reviewer"⟩], 0⟩]
        90000000 .ok (fun _ => .ok [])).fetchedTiers := by
  constructor
  · intro hmem
    refine ((c6_cache_freshness "com.example.app" "a1"
        [⟨"com.example.app", 1, [⟨"a sample review text here", 1, "2024-01-01", 0, "reviewer"⟩], 0⟩]
        82800000 (fun _ => .ok []) 1 (fun _ => rfl) (Or.inl rfl)).1.mp hmem) ?_
    exact ⟨⟨"com.example.app", 1, [⟨"a sample review text here", 1, "2024-01-01", 0, "reviewer"⟩], 0⟩,
      by simp, rfl, rfl, by decide⟩
  · refine ((c6_cache_freshness "com.example.app" "a1"
        [⟨"com.example.app", 1, [⟨"a sample review text here", 1, "2024-01-01", 0, "reviewer"⟩], 0⟩]
        90000000 (fun _ => .ok []) 1 (fun _ => rfl) (Or.inl rfl)).1.mpr ?_)
    rintro ⟨r, hr, -, -, h3⟩
    rw [List.mem_singleton] at hr
    subst hr
    exact absurd h3 (by decide)

/-!
## Claim C10 — author-identity redaction (PII minimization)
-/


theorem sanitizeReview_userName (r : RawReview) :
    (sanitizeReview r).userName = "reviewer" := rfl

theorem sanitizeReview_congr {r s : RawReview} (h : SameModUser r s) :
    sanitizeReview r = sanitizeReview s := by
  obtain ⟨h1, h2, h3, h4⟩ := h
  unfold sanitizeReview
  rw [h1, h2, h3, h4]

theorem forall2_filter_score (c : Int) {l l' : List RawReview}
    (h : List.Forall₂ SameModUser l l') :
    List.Forall₂ SameModUser (l.filter fun r => r.score == c)
      (l'.filter fun r => r.score == c) := by
  induction h with
  | nil => exact List.Forall₂.nil
  | cons hab hrest ih =>
    rename_i a b as bs
    rw [List.filter_cons, List.filter_cons]
    have hs : (a.score == c) = (b.score == c) := by rw [hab.2.1]
    by_cases hc : (a.score == c) = true
    · rw [if_pos hc, if_pos (hs ▸ hc)]
      exact List.Forall₂.cons hab ih
    · rw [if_neg hc, if_neg (fun hb => hc (hs ▸ hb))]
      exact ih

theorem map_sanitize_congr {l l' : List RawReview}
    (h : List.Forall₂ SameModUser l l') :
    l.map sanitizeReview = l'.map sanitizeReview := by
  induction h with
  | nil => rfl
  | cons hab hrest ih =>
    simp only [List.map_cons, ih, sanitizeReview_congr hab]

theorem runTier_congr (appId : String) (now : Int)
    (cm : Nat → Option (List ReviewItem)) (st : LoopState) (t : Nat)
    {g g' : Nat → GplayOutcome} (h : SameGplayModUser (g t) (g' t)) :
    runTier appId now g cm st t = runTier appId now g' cm st t := by
  unfold runTier
  cases cm t with
  | some cached => rfl
  | none =>
    cases hg : g t with
    | throw m =>
      cases hg' : g' t with
      | throw m' =>
        rw [hg, hg'] at h
        have hm : m = m' := h
        rw [hm]
      | ok raw' =>
        rw [hg, hg'] at h
        exact absurd h (by simp [SameGplayModUser])
    | ok raw =>
      cases hg' : g' t with
      | throw m' =>
        rw [hg, hg'] at h
        exact absurd h (by simp [SameGplayModUser])
      | ok raw' =>
        rw [hg, hg'] at h
        have h2 : List.Forall₂ SameModUser raw raw' := h
        have hfm : ((raw.filter fun r => r.score == (t : Int)).take REVIEWS_PER_TIER).map
              sanitizeReview
            = ((raw'.filter fun r => r.score == (t : Int)).take REVIEWS_PER_TIER).map
              sanitizeReview :=
          map_sanitize_congr (List.forall₂_take _ (forall2_filter_score _ h2))
        have hfb : (raw.take REVIEWS_PER_TIER).map sanitizeReview
            = (raw'.take REVIEWS_PER_TIER).map sanitizeReview :=
          map_sanitize_congr (List.forall₂_take _ h2)
        have hre : raw.isEmpty = raw'.isEmpty := by
          have := h2.length_eq
          cases raw <;> cases raw' <;> simp_all
        simp only [hfm, hfb, hre]

theorem runTiers_congr (appId : String) (now : Int)
    (cm : Nat → Option (List ReviewItem))
    {g g' : Nat → GplayOutcome} (h : ∀ u, SameGplayModUser (g u) (g' u)) :
    ∀ (ts : List Nat) (st : LoopState),
      runTiers appId now g cm st ts = runTiers appId now g' cm st ts := by
  intro ts
  induction ts with
  | nil => intro st; rfl
  | cons t ts ih =>
    intro st
    simp only [runTiers, runTier_congr appId now cm st t (h t)]
    cases runTier appId now g' cm st t with
    | next st' => exact ih st'
    | abortNotFound st' => rfl

theorem scrapeReviewsRun_congr (appId analysisId : String) (cache : List CacheRow)
    (now : Int) (meta : MetaOutcome) {g g' : Nat → GplayOutcome}
    (h : ∀ u, SameGplayModUser (g u) (g' u)) :
    scrapeReviewsRun appId analysisId cache now meta g
      = scrapeReviewsRun appId analysisId cache now meta g' := by
  unfold scrapeReviewsRun
  by_cases hma : metaAborts meta = true
  · rw [if_pos hma, if_pos hma]
  · rw [if_neg hma, if_neg hma]
    simp only []
    rw [runTiers_congr appId now (cachedTierLookup (freshCacheRows cache appId now)) h
      [1, 2, 3] ⟨[], [⟨"scraping", 5⟩], [], []⟩]

theorem mem_map_sanitize_userName {l : List RawReview} {x : ReviewItem}
    (hx : x ∈ l.map sanitizeReview) : x.userName = "reviewer" := by
  rcases List.mem_map.mp hx with ⟨y, _, hy⟩
  rw [← hy]
  rfl

theorem runTier_writes_reviewer (appId : String) (now : Int) (g : Nat → GplayOutcome)
    (cm : Nat → Option (List ReviewItem)) (st : LoopState) (t : Nat)
    (h : ∀ row ∈ st.cacheWrites, ∀ r ∈ row.reviews, r.userName = "reviewer") :
    ∀ row ∈ (runTier appId now g cm st t).state.cacheWrites,
      ∀ r ∈ row.reviews, r.userName = "reviewer" := by
  unfold runTier
  cases cm t with
  | some cached => exact h
  | none =>
    cases g t with
    | throw m =>
      by_cases hnf : notFoundMsg m = true
      · simp only [hnf, if_true]
        exact h
      · simp only [hnf, Bool.false_eq_true, if_false]
        exact h
    | ok raw =>
      simp only [TierOut.state]
      by_cases hte : (if ((((raw.filter fun r => r.score == (t : Int)).take
            REVIEWS_PER_TIER).map sanitizeReview).isEmpty && !raw.isEmpty) = true then
            (raw.take REVIEWS_PER_TIER).map sanitizeReview
          else ((raw.filter fun r => r.score == (t : Int)).take
            REVIEWS_PER_TIER).map sanitizeReview).isEmpty = true
      · rw [if_pos hte]
        exact h
      · rw [if_neg hte]
        intro row hrow r hr
        rcases List.mem_append.mp hrow with hrow | hrow
        · exact h row hrow r hr
        · rw [List.mem_singleton.mp hrow] at hr
          simp only [] at hr
          split at hr
          · exact mem_map_sanitize_userName hr
          · exact mem_map_sanitize_userName hr

theorem runTiers_writes_reviewer (appId : String) (now : Int) (g : Nat → GplayOutcome)
    (cm : Nat → Option (List ReviewItem)) :
    ∀ (ts : List Nat) (st : LoopState),
      (∀ row ∈ st.cacheWrites, ∀ r ∈ row.reviews, r.userName = "reviewer") →
      ∀ row ∈ (runTiers appId now g cm st ts).state.cacheWrites,
        ∀ r ∈ row.reviews, r.userName = "reviewer" := by
  intro ts
  induction ts with
  | nil => intro st h; exact h
  | cons t ts ih =>
    intro st h
    have hstep := runTier_writes_reviewer appId now g cm st t h
    rw [runTiers]
    cases hrt : runTier appId now g cm st t with
    | next st' =>
      rw [hrt] at hstep
      exact ih st' hstep
    | abortNotFound st' =>
      rw [hrt] at hstep
      exact hstep

theorem scrapeRun_writes_reviewer (appId analysisId : String) (cache : List CacheRow)
    (now : Int) (meta : MetaOutcome) (g : Nat → GplayOutcome) :
    ∀ row ∈ (scrapeReviewsRun appId analysisId cache now meta g).cacheWrites,
      ∀ r ∈ row.reviews, r.userName = "reviewer" := by
  intro row hrow
  unfold scrapeReviewsRun at hrow
  have hloop := runTiers_writes_reviewer appId now g
      (cachedTierLookup (freshCacheRows cache appId now)) [1, 2, 3]
      ⟨[], [⟨"scraping", 5⟩], [], []⟩ (by intro x hx; exact absurd hx (List.not_mem_nil x))
  split at hrow
  · exact absurd hrow (List.not_mem_nil row)
  · simp only [] at hrow
    split at hrow
    · exact absurd hrow (List.not_mem_nil row)
    · cases hrt : runTiers appId now g (cachedTierLookup (freshCacheRows cache appId now))
          ⟨[], [⟨"scraping", 5⟩], [], []⟩ [1, 2, 3] with
      | abortNotFound st =>
        rw [hrt] at hrow hloop
        simp only [TierOut.state] at hloop
        simp only [] at hrow
        exact hloop row hrow
      | next st =>
        rw [hrt] at hrow hloop
        simp only [TierOut.state] at hloop
        simp only [] at hrow
        split at hrow
        · exact hloop row hrow
        · exact hloop row hrow

theorem reviewsForPrompt_congr {l l' : List ReviewItem}
    (h : List.Forall₂ (fun a b : ReviewItem => a.text = b.text ∧ a.score = b.score) l l') :
    reviewsForPrompt l = reviewsForPrompt l' := by
  unfold reviewsForPrompt
  induction h with
  | nil => rfl
  | cons hab hrest ih =>
    rename_i a b as bs
    rw [List.filter_cons, List.filter_cons]
    have hk : keepsReview a = keepsReview b := by
      unfold keepsReview
      rw [hab.1]
    by_cases hc : keepsReview a = true
    · rw [if_pos hc, if_pos (hk ▸ hc)]
      rw [List.map_cons, List.map_cons, ih]
      have hp : promptLine a = promptLine b := by
        unfold promptLine
        rw [hab.1, hab.2]
      rw [hp]
    · rw [if_neg hc, if_neg (fun hb => hc (hk ▸ hb))]
      exact ih

/-- **C10.** Every review item the collector caches or returns carries the
fixed placeholder `reviewer` as its author identity (in both the
tier-filtered and the fallback mapping), and the extraction payload is built
from each sample's text and score only: two runs differing only in the remote
source's author-identity values produce identical scrape outcomes (cache
writes, events, returned samples), and item lists differing only in author
identity produce identical extraction payloads. -/
theorem c10_pii_redaction (appId analysisId : String) (cache : List CacheRow) (now : Int)
    (meta : MetaOutcome) (g g' : Nat → GplayOutcome)
    (hg : ∀ u, SameGplayModUser (g u) (g' u)) :
    scrapeReviewsRun appId analysisId cache now meta g
      = scrapeReviewsRun appId analysisId cache now meta g'
    ∧ (∀ row ∈ (scrapeReviewsRun appId analysisId cache now meta g).cacheWrites,
        ∀ r ∈ row.reviews, r.userName = "reviewer")
    ∧ (∀ raw : RawReview, (sanitizeReview raw).userName = "reviewer")
    ∧ (∀ l l' : List ReviewItem,
        List.Forall₂ (fun a b : ReviewItem => a.text = b.text ∧ a.score = b.score) l l' →
        reviewsForPrompt l = reviewsForPrompt l') :=
  ⟨scrapeReviewsRun_congr appId analysisId cache now meta hg,
   scrapeRun_writes_reviewer appId analysisId cache now meta g,
   fun _ => rfl,
   fun _ _ h => reviewsForPrompt_congr h⟩

/-- Witness for C10: two runs whose remote reviews differ only in the author
name (`Alice` vs `Bob`) produce identical scrape outcomes. -/
theorem c10_pii_redaction_witness :
    scrapeReviewsRun "com.example.app" "a1" [] 0 .ok
        (fun _ => .ok [⟨some "great app but it crashes a lot", 1, "2024-01-01",
          some 2, some "Alice"⟩])
      = scrapeReviewsRun "com.example.app" "a1" [] 0 .ok
        (fun _ => .ok [⟨some "great app but it crashes a lot", 1, "2024-01-01",
          some 2, some "Bob"⟩]) :=
  (c10_pii_redaction "com.example.app" "a1" [] 0 .ok
    (fun _ => .ok [⟨some "great app but it crashes a lot", 1, "2024-01-01",
      some 2, some "Alice"⟩])
    (fun _ => .ok [⟨some "great app but it crashes a lot", 1, "2024-01-01",
      some 2, some "Bob"⟩])
    (fun _ => List.Forall₂.cons ⟨rfl, rfl, rfl, rfl⟩ List.Forall₂.nil)).1


end InsightStore
